import Mathlib

/-!
Shallow embedding of `pyconfig` (src/pyconfig/__init__.py): the settings
store (`Config.set` / `Config.get` / `Config._update`), the etcd adapter
(`etcd.load`, the `prefix` property) and the watcher thread (`Watcher.run`).

Python values stored in the settings mapping are modelled by the inductive
`Value` (None, bool, int, str cover everything the claims exercise), and the
settings dict by an association list with in-place replacing insertion.
Python exceptions are modelled by `Except String` results; Python
truth-testing by `truthy`.
-/

/-- Python values as they occur in the settings mapping. -/
inductive Value where
  | VNone : Value
  | VBool : Bool → Value
  | VInt : Int → Value
  | VStr : String → Value
deriving DecidableEq

/-- Python truth-testing (`bool(v)`): None and False are falsy, numbers are
falsy iff zero, strings falsy iff empty. -/
def truthy : Value → Bool
  | Value.VNone => false
  | Value.VBool b => b
  | Value.VInt n => decide (n ≠ 0)
  | Value.VStr s => decide (s ≠ "")

/-- Python `s.lower()`: lower-case every character (character-list form,
so that it evaluates inside the kernel). -/
def lowerStr (s : String) : String :=
  String.mk (s.toList.map Char.toLower)

/-- Character-list version of `startswith`. -/
def listPre : List Char → List Char → Bool
  | [], _ => true
  | _ :: _, [] => false
  | a :: ps, b :: ks => a == b && listPre ps ks

/-- The settings dict: an association list from key to value.  Earlier
entries shadow later ones in `lookupS`; `insertS` replaces in place, so a
store built only through `insertS` has no duplicate keys (like a dict). -/
abbrev Store := List (String × Value)

/-- Dict lookup: `settings[k]` as an `Option`. -/
def lookupS : Store → String → Option Value
  | [], _ => Option.none
  | (a, v) :: rest, k => if a = k then Option.some v else lookupS rest k

/-- Dict assignment `settings[k] = v`: replaces the existing binding in
place, appends if absent. -/
def insertS : Store → String → Value → Store
  | [], k, v => [(k, v)]
  | (a, w) :: rest, k, v =>
    if a = k then (a, v) :: rest else (a, w) :: insertS rest k v

/-- Dict lookup with default: `settings.get(k, d)`. -/
def lookupD (s : Store) (k : String) (d : Value) : Value :=
  (lookupS s k).getD d

/-- `k in settings`. -/
def hasKey : Store → String → Bool
  | [], _ => false
  | (a, _) :: rest, k => if a = k then true else hasKey rest k

/-- No key appears twice; holds for any store built by `insertS` alone. -/
def keysNodup : Store → Bool
  | [] => true
  | (a, _) :: rest => if hasKey rest a then false else keysNodup rest

/-- Python `d1.update(d2)`: assign every binding of `other` into `base`,
in order. -/
def dictUpdate (base other : Store) : Store :=
  other.foldl (fun acc kv => insertS acc kv.1 kv.2) base

/-- The setting that controls key normalization
(`"pyconfig.case_sensitive"`). -/
def caseSensitiveKey : String := "pyconfig.case_sensitive"

/-- `self.settings.get("pyconfig.case_sensitive", False)` under Python
truth-testing, as read at every mutation/lookup. -/
def getCaseSensitive (settings : Store) : Bool :=
  truthy (lookupD settings caseSensitiveKey Value.VNone)

/-- Key normalization shared by `Config.set` and `Config.get`: lower-case
the name unless the store currently says it is case-sensitive. -/
def normKey (settings : Store) (name : String) : String :=
  if getCaseSensitive settings then name else lowerStr name

/-- `Config.set(name, value)` (src lines 82-98): normKey the name by the
current case policy, then assign.  The lock around the write is a
no-op in this sequential model. -/
def Config.set (settings : Store) (name : String) (value : Value) : Store :=
  insertS settings (normKey settings name) value

/-- The `LookupError` message `'No setting "{name}"'` after formatting. -/
def noSettingMsg (name : String) : String :=
  "No setting \"" ++ name ++ "\""

/-- `Config.get(name, default, allow_default)` (src lines 209-227): returns
the result (ok value, or the raised `LookupError` message) together with
the settings dict after the call (a missing key is persisted with the
default when defaulting is allowed; the raising branch mutates nothing). -/
def Config.get (settings : Store) (name : String) (dflt : Value)
    (allow_default : Bool) : Except String Value × Store :=
  let n := normKey settings name
  match lookupS settings n with
  | Option.some v => (Except.ok v, settings)
  | Option.none =>
    if allow_default then (Except.ok dflt, insertS settings n dflt)
    else (Except.error (noSettingMsg n), settings)

/-- The value component of `Config.get`. -/
def Config.getv (settings : Store) (name : String) (dflt : Value)
    (allow_default : Bool) : Except String Value :=
  (Config.get settings name dflt allow_default).1

/-- A value bound at a module's top level, as `Config._update` sees it:
a plain value, a callable (invoked with no arguments, returning a Python
value), the `Namespace` class object itself, or a `Namespace` instance.
`Namespace` comes from the external `pytool` library; an instance is
modelled abstractly by its `iteritems(base)` flattening. -/
inductive PyObj where
  | val : Value → PyObj
  | fn : (Unit → Value) → PyObj
  | nsType : PyObj
  | ns : (String → List (String × Value)) → PyObj

/-- One iteration of the `Config._update` loop (src lines 100-128) on the
binding `b` with namespace `base`: skip private names and the accidentally
imported `Namespace` class, prefix with the base namespace, flatten
`Namespace` instances, call callables (a `None` result produces no
setting), and `set` everything else. -/
def Config.update1 (settings : Store) (base : Option String)
    (b : String × PyObj) : Store :=
  if listPre "_".toList b.1.toList then settings
  else
    match b.2 with
    | PyObj.nsType => settings
    | v =>
      let name :=
        match base with
        | Option.some bn => bn ++ "." ++ b.1
        | Option.none => b.1
      match v with
      | PyObj.ns items =>
        (items name).foldl (fun acc p => Config.set acc p.1 p.2) settings
      | PyObj.fn f =>
        match f () with
        | Value.VNone => settings
        | w => Config.set settings name w
      | PyObj.val w => Config.set settings name w
      | PyObj.nsType => settings

/-- `Config._update(conf_dict, base_name)`: fold `update1` over the
module's bindings in iteration order. -/
def Config.updateAll (settings : Store) (conf : List (String × PyObj))
    (base : Option String) : Store :=
  conf.foldl (fun acc b => Config.update1 acc base b) settings

/-- Python `s.strip("/")`: drop `/` characters from both ends. -/
def stripSlashes (s : String) : String :=
  String.mk (((s.toList.dropWhile (fun c => c == '/')).reverse.dropWhile
    (fun c => c == '/')).reverse)

/-- The `"/" + p.strip("/") + "/"` normalization applied to every etcd
key range name. -/
def normPfx (p : String) : String :=
  "/" ++ stripSlashes p ++ "/"

/-- The setting under which the adapter's key range name is stored. -/
def etcdPfxKey : String := "pyconfig.etcd.prefix"

/-- The `etcd` property getter `_get_prefix` (src lines 582-583):
`"/" + (get("pyconfig.etcd.prefix") or "/config/").strip("/") + "/"`.
Returns the string together with the settings dict after the embedded
`get` (which persists `None` when the key is absent); `none` models the
`AttributeError` raised when a truthy non-string is stored there. -/
def etcdPfxGet (settings : Store) : Option (String × Store) :=
  match Config.get settings etcdPfxKey Value.VNone true with
  | (Except.ok v, s1) =>
    if truthy v then
      match v with
      | Value.VStr str => Option.some (normPfx str, s1)
      | _ => Option.none
    else Option.some (normPfx "/config/", s1)
  | (Except.error _, _) => Option.none

/-- The `etcd` property setter `_set_prefix` (src lines 577-580): a falsy
argument is ignored, otherwise the slash-normalized form is stored under
`"pyconfig.etcd.prefix"` via `set`. -/
def etcdPfxSet (settings : Store) (p : Option String) : Store :=
  match p with
  | Option.none => settings
  | Option.some s =>
    if s = "" then settings
    else Config.set settings etcdPfxKey (Value.VStr (normPfx s))

/-- The state of the `etcd` borg singleton that `load` and the watcher
read: whether module and client are both present (`configured`), the
case-sensitivity echo captured at construction, the inheritance key and
depth, the remote store (children of a key range, as raw strings, or
`none` for `EtcdKeyNotFound` / an empty result), and the external JSON
decoder `pytool.json.from_json` (`none` models a decode exception). -/
structure EtcdState where
  configured : Bool
  case_sensitive : Bool
  inheritKey : String
  inheritDepth : Nat
  remote : String → Option (List (String × String))
  fromJson : String → Option Value

/-- Best-effort JSON decode: `try: value = from_json(value) except: pass`. -/
def decodeVal (st : EtcdState) (raw : String) : Value :=
  match st.fromJson raw with
  | Option.some v => v
  | Option.none => Value.VStr raw

/-- Key post-processing in the `etcd.load` children loop (src lines
469-475): lower-case unless case-sensitive, then strip the leading key
range name when present. -/
def childKey (st : EtcdState) (p k0 : String) : String :=
  let k := if st.case_sensitive then k0 else lowerStr k0
  if listPre p.toList k.toList then String.mk (k.toList.drop p.toList.length)
  else k

/-- The flat `update` mapping `etcd.load` builds from the fetched
children (src lines 459-478). -/
def buildUpdate (st : EtcdState) (p : String)
    (children : List (String × String)) : Store :=
  children.foldl (fun acc c => insertS acc (childKey st p c.1) (decodeVal st c.2)) []

/-- The body of `etcd.load(prefix, depth)` (src lines 431-490) for one
level, with the recursive call at `depth - 1` abstracted as `recurse` and
the `depth > 0` test as `depthPos`: returns `ok none` for Python `None`
(the bare `return` when not configured), `ok (some m)` for a returned
dict, and `error` for an uncaught exception (a truthy non-string inherit
pointer).  The `inherited` pointer is
`Config().settings.get(ik, update.get(ik, None))` — the Settings Store
value is preferred over the freshly fetched one — and a truthy pointer
with positive remaining depth triggers the recursive load, whose result
is merged underneath the current level (`inherited.update(update)`).
The watcher start is a thread side effect with no influence on the
returned mapping and is modelled separately. -/
def etcdLoadCore (st : EtcdState) (settings : Store)
    (recurse : String → Except String (Option Store)) (depthPos : Bool)
    (pfx0 : String) : Except String (Option Store) :=
  let p := normPfx pfx0
  if st.configured = false then Except.ok Option.none
  else
    match st.remote p with
    | Option.none => Except.ok (Option.some [])
    | Option.some children =>
      let u := buildUpdate st p children
      let inh := lookupD settings st.inheritKey
        (lookupD u st.inheritKey Value.VNone)
      if depthPos && truthy inh then
        match inh with
        | Value.VStr s =>
          match recurse s with
          | Except.error e => Except.error e
          | Except.ok r => Except.ok (Option.some (dictUpdate (r.getD []) u))
        | _ => Except.error "AttributeError"
      else Except.ok (Option.some u)

/-- `etcd.load` with both arguments resolved: each level is
`etcdLoadCore` with `depthPos` the `depth > 0` test and `recurse` the
load at `depth - 1` (at depth 0 the guard is false, so the unreachable
continuation returning `none` is never consulted). -/
def etcdLoadGo (st : EtcdState) (settings : Store) :
    Nat → String → Except String (Option Store)
  | 0, pfx0 =>
    etcdLoadCore st settings (fun _ => Except.ok Option.none) false pfx0
  | Nat.succ d, pfx0 =>
    etcdLoadCore st settings (etcdLoadGo st settings d) true pfx0

/-- `etcd.load` argument resolution: a falsy `prefix` argument falls back
to the `prefix` property (whose getter may itself mutate the store), a
missing `depth` falls back to the construction-time inheritance depth. -/
def etcdLoad (st : EtcdState) (settings : Store) (pfxArg : Option String)
    (depthArg : Option Nat) : Except String (Option Store) :=
  let d := match depthArg with
    | Option.some n => n
    | Option.none => st.inheritDepth
  match pfxArg with
  | Option.some s =>
    if s = "" then
      match etcdPfxGet settings with
      | Option.some pr => etcdLoadGo st pr.2 d pr.1
      | Option.none => Except.error "AttributeError"
    else etcdLoadGo st settings d s
  | Option.none =>
    match etcdPfxGet settings with
    | Option.some pr => etcdLoadGo st pr.2 d pr.1
    | Option.none => Except.error "AttributeError"

/-- Remove the first occurrence of `pat` (Python
`s.replace(pat, "", 1)`). -/
def remFirstAux : List Char → List Char → List Char
  | [], _ => []
  | c :: cs, pat =>
    if listPre pat (c :: cs) then (c :: cs).drop pat.length
    else c :: remFirstAux cs pat

/-- String wrapper for `remFirstAux`. -/
def removeFirst (s pat : String) : String :=
  String.mk (remFirstAux s.toList pat.toList)

/-- One event from the etcd change feed, as `Watcher.run` sees it. -/
structure EtcdEvent where
  action : String
  key : String
  value : String

/-- One iteration of the `Watcher.run` loop (src lines 605-621): any
event whose action is not `"set"` is skipped outright; a `"set"` event
reads `etcd().prefix` (which may mutate the store and, on a truthy
non-string stored value, crash the thread — the `none` result), removes
its first occurrence from the key, best-effort JSON-decodes the value and
writes the pair through `Config.set`. -/
def watchStep (st : EtcdState) (settings : Store) (e : EtcdEvent) :
    Option Store :=
  if e.action = "set" then
    match etcdPfxGet settings with
    | Option.some pr => Option.some (Config.set pr.2 (removeFirst e.key pr.1) (decodeVal st e.value))
    | Option.none => Option.none
  else Option.some settings

/-- The watcher event loop: fold `watchStep` over the events the change
feed yields, threading the settings dict. -/
def watchRun (st : EtcdState) (settings : Store) :
    List EtcdEvent → Option Store
  | [] => Option.some settings
  | e :: es =>
    match watchStep st settings e with
    | Option.some s1 => watchRun st s1 es
    | Option.none => Option.none

/-- `Watcher.run` (src lines 600-621): the thread returns at once when the
adapter is not configured, otherwise it processes the event stream. -/
def watcherRun (st : EtcdState) (settings : Store)
    (events : List EtcdEvent) : Option Store :=
  if st.configured then watchRun st settings events
  else Option.some settings


/-- A configured adapter over a concrete two-level remote store, used by
the examples: range `/a/` holds `x = 1`; range `/b/` holds `y = 2` and an
inherit pointer to `/a/`; everything else is absent. -/
def exSt : EtcdState where
  configured := true
  case_sensitive := false
  inheritKey := "config.inherit"
  inheritDepth := 2
  remote := fun p =>
    if p = "/a/" then Option.some [("/a/x", "1")]
    else if p = "/b/" then
      Option.some [("/b/y", "2"), ("/b/config.inherit", "/a/")]
    else Option.none
  fromJson := fun s =>
    if s = "1" then Option.some (Value.VInt 1)
    else if s = "2" then Option.some (Value.VInt 2)
    else Option.none

/-- The same adapter with the backend library or client missing. -/
def exStOff : EtcdState := { exSt with configured := false }

/-! ## Store lemmas -/

theorem lookupS_insertS_self (s : Store) (k : String) (v : Value) :
    lookupS (insertS s k v) k = Option.some v := by
  induction s with
  | nil => simp [insertS, lookupS]
  | cons a rest ih =>
    obtain ⟨ak, av⟩ := a
    by_cases h : ak = k
    · subst h
      simp [insertS, lookupS]
    · simp [insertS, lookupS, h, ih]

theorem lookupS_insertS_ne (s : Store) (k k' : String) (v : Value)
    (h : k ≠ k') : lookupS (insertS s k v) k' = lookupS s k' := by
  induction s with
  | nil => simp [insertS, lookupS, h]
  | cons a rest ih =>
    obtain ⟨ak, av⟩ := a
    by_cases hak : ak = k
    · subst hak
      simp [insertS, lookupS, h]
    · simp [insertS, lookupS, hak, ih]

theorem getCS_insertS_ne (s : Store) (k : String) (v : Value)
    (h : k ≠ caseSensitiveKey) :
    getCaseSensitive (insertS s k v) = getCaseSensitive s := by
  simp [getCaseSensitive, lookupD, lookupS_insertS_ne s k caseSensitiveKey v h]

theorem hasKey_insertS (s : Store) (k k' : String) (v : Value) :
    hasKey (insertS s k v) k' = (hasKey s k' || decide (k = k')) := by
  induction s with
  | nil => simp [insertS, hasKey]
  | cons a rest ih =>
    obtain ⟨ak, av⟩ := a
    by_cases hak : ak = k
    · subst hak
      by_cases hk' : ak = k'
      · simp [insertS, hasKey, hk']
      · simp [insertS, hasKey, hk', ih]
    · by_cases hk' : ak = k'
      · subst hk'
        simp [insertS, hasKey, hak]
      · simp [insertS, hasKey, hak, hk', ih]

theorem keysNodup_insertS (s : Store) (k : String) (v : Value)
    (h : keysNodup s = true) : keysNodup (insertS s k v) = true := by
  induction s with
  | nil => simp [insertS, keysNodup, hasKey]
  | cons a rest ih =>
    obtain ⟨ak, av⟩ := a
    by_cases hak : ak = k
    · subst hak
      simpa [insertS, keysNodup] using h
    · simp only [keysNodup] at h
      by_cases hmem : hasKey rest ak
      · simp [hmem] at h
      · simp [hmem] at h
        simp [insertS, hak, keysNodup, hasKey_insertS, hmem, Ne.symm hak, ih h]

theorem dictUpdate_not_mem (other : Store) :
    ∀ (base : Store) (k : String), hasKey other k = false →
      lookupS (dictUpdate base other) k = lookupS base k := by
  induction other with
  | nil => intro base k _; rfl
  | cons a rest ih =>
    intro base k h
    obtain ⟨ak, av⟩ := a
    simp only [hasKey] at h
    by_cases hak : ak = k
    · simp [hak] at h
    · simp only [hak, if_false] at h
      show lookupS (dictUpdate (insertS base ak av) rest) k = lookupS base k
      rw [ih (insertS base ak av) k h, lookupS_insertS_ne base ak k av hak]

theorem dictUpdate_mem (other : Store) :
    ∀ (base : Store) (k : String) (v : Value), keysNodup other = true →
      lookupS other k = Option.some v →
      lookupS (dictUpdate base other) k = Option.some v := by
  induction other with
  | nil => intro base k v _ h; simp [lookupS] at h
  | cons a rest ih =>
    intro base k v hnd hl
    obtain ⟨ak, av⟩ := a
    simp only [keysNodup] at hnd
    by_cases hmem : hasKey rest ak
    · simp [hmem] at hnd
    · simp only [hmem, if_false] at hnd
      simp only [lookupS] at hl
      by_cases hak : ak = k
      · subst hak
        simp at hl
        subst hl
        show lookupS (dictUpdate (insertS base ak av) rest) ak = Option.some av
        rw [dictUpdate_not_mem rest (insertS base ak av) ak (by simpa using hmem),
          lookupS_insertS_self]
      · simp only [hak, if_false] at hl
        exact ih (insertS base ak av) k v hnd hl

theorem keysNodup_foldl_insert {α : Type} (l : List α) (f : α → String)
    (g : α → Value) :
    ∀ acc : Store, keysNodup acc = true →
      keysNodup (l.foldl (fun a c => insertS a (f c) (g c)) acc) = true := by
  induction l with
  | nil => intro acc h; simpa using h
  | cons c rest ih =>
    intro acc h
    simpa using ih (insertS acc (f c) (g c)) (keysNodup_insertS acc (f c) (g c) h)

theorem keysNodup_buildUpdate (st : EtcdState) (p : String)
    (children : List (String × String)) :
    keysNodup (buildUpdate st p children) = true :=
  keysNodup_foldl_insert children (fun c => childKey st p c.1)
    (fun c => decodeVal st c.2) [] rfl

theorem hasKey_insertS_mono (s : Store) (k k' : String) (v : Value)
    (h : hasKey s k = true) : hasKey (insertS s k' v) k = true := by
  simp [hasKey_insertS, h]

theorem hasKey_configSet_mono (s : Store) (n k : String) (v : Value)
    (h : hasKey s k = true) : hasKey (Config.set s n v) k = true :=
  hasKey_insertS_mono s k (normKey s n) v h

theorem hasKey_etcdPfxGet_mono (settings s1 : Store) (p : String) (k : String)
    (h : etcdPfxGet settings = Option.some (p, s1))
    (hk : hasKey settings k = true) : hasKey s1 k = true := by
  unfold etcdPfxGet Config.get at h
  cases hl : lookupS settings (normKey settings etcdPfxKey) with
  | some v =>
    simp only [hl] at h
    by_cases ht : truthy v
    · cases v with
      | VStr str =>
        simp only [ht, if_true] at h
        obtain ⟨-, rfl⟩ := Prod.mk.injEq .. ▸ (Option.some.injEq .. ▸ h)
        exact hk
      | VNone => simp [truthy] at ht
      | VBool b => simp only [ht, if_true] at h; cases h
      | VInt n => simp only [ht, if_true] at h; cases h
    · simp only [ht, if_false, Option.some.injEq, Prod.mk.injEq] at h
      obtain ⟨-, rfl⟩ := h
      exact hk
  | none =>
    simp only [hl, if_true, Option.some.injEq] at h
    by_cases ht : truthy Value.VNone
    · simp [truthy] at ht
    · simp only [ht, if_false, Option.some.injEq, Prod.mk.injEq] at h
      obtain ⟨-, rfl⟩ := h
      exact hasKey_insertS_mono settings k (normKey settings etcdPfxKey)
        Value.VNone hk

theorem watchStep_mono (st : EtcdState) (settings s1 : Store) (e : EtcdEvent)
    (k : String) (h : watchStep st settings e = Option.some s1)
    (hk : hasKey settings k = true) : hasKey s1 k = true := by
  unfold watchStep at h
  by_cases ha : e.action = "set"
  · rw [ha, if_pos rfl] at h
    cases hg : etcdPfxGet settings with
    | none => simp [hg] at h
    | some pr =>
      simp only [hg, Option.some.injEq] at h
      subst h
      exact hasKey_configSet_mono pr.2 (removeFirst e.key pr.1) k
        (decodeVal st e.value)
        (hasKey_etcdPfxGet_mono settings pr.2 pr.1 k (by simpa using hg) hk)
  · rw [if_neg ha] at h
    cases h
    exact hk

theorem watchRun_mono (st : EtcdState) (events : List EtcdEvent) :
    ∀ (settings res : Store) (k : String),
      watchRun st settings events = Option.some res →
      hasKey settings k = true → hasKey res k = true := by
  induction events with
  | nil =>
    intro settings res k h hk
    simp only [watchRun, Option.some.injEq] at h
    subst h
    exact hk
  | cons e rest ih =>
    intro settings res k h hk
    simp only [watchRun] at h
    cases hs : watchStep st settings e with
    | none => simp [hs] at h
    | some s1 =>
      simp only [hs] at h
      exact ih s1 res k h (watchStep_mono st settings s1 e k hs hk)

/-! ## Claims about `Config.set` / `Config.get` -/

/-- C1 (amended): `Config.set(k, v)` followed by `Config.get(k, d)` returns
`v` for every default `d`, provided the write leaves the case
normalization applied to `k` unchanged — which holds whenever the write
does not flip the `pyconfig.case_sensitive` policy (in particular for
every `k` that is not a case variant of that key) and whenever `k` is
already lower-case.  Without that proviso the claim fails: writing a
truthy value under `"PYCONFIG.CASE_SENSITIVE"` stores it lower-cased but
switches `get` to case-sensitive lookup of the original spelling. -/
theorem set_then_get_roundtrip (settings : Store) (k : String) (v d : Value)
    (h : normKey (Config.set settings k v) k = normKey settings k) :
    Config.get (Config.set settings k v) k d true =
      (Except.ok v, Config.set settings k v) := by
  have h' : normKey (insertS settings (normKey settings k) v) k =
      normKey settings k := h
  simp [Config.get, Config.set, h', lookupS_insertS_self]

theorem set_then_get_roundtrip_witness :
    Config.get (Config.set [] "Foo" (Value.VInt 7)) "Foo" Value.VNone true =
      (Except.ok (Value.VInt 7), Config.set [] "Foo" (Value.VInt 7)) :=
  set_then_get_roundtrip [] "Foo" (Value.VInt 7) Value.VNone (by decide)

/-- C1 counterexample: on the empty store,
`set("PYCONFIG.CASE_SENSITIVE", True)` stores the value under the
lower-cased key and flips the policy, so the immediately following
`get("PYCONFIG.CASE_SENSITIVE", None)` misses and returns the default
`None` rather than the value just written. -/
theorem set_then_get_cex :
    Config.getv (Config.set [] "PYCONFIG.CASE_SENSITIVE" (Value.VBool true))
        "PYCONFIG.CASE_SENSITIVE" Value.VNone true = Except.ok Value.VNone ∧
    Value.VNone ≠ Value.VBool true := by
  exact ⟨rfl, by decide⟩

/-- C2 (amended): for a key `k` whose normalized form is absent,
`get(k, d)` returns `d` and persists it, and a subsequent `get(k, d2)`
still returns `d`, provided persisting `d` leaves the case normalization
applied to `k` unchanged (it always does unless `k` is a non-lower-case
variant of `"pyconfig.case_sensitive"` and `d` is truthy). -/
theorem default_sticks (settings : Store) (k : String) (d d2 : Value)
    (habs : lookupS settings (normKey settings k) = Option.none)
    (hn : normKey (insertS settings (normKey settings k) d) k =
      normKey settings k) :
    Config.get settings k d true =
      (Except.ok d, insertS settings (normKey settings k) d) ∧
    Config.get (insertS settings (normKey settings k) d) k d2 true =
      (Except.ok d, insertS settings (normKey settings k) d) := by
  constructor
  · simp [Config.get, habs]
  · simp [Config.get, hn, lookupS_insertS_self]

theorem default_sticks_witness :
    Config.get [] "alpha" (Value.VInt 1) true =
      (Except.ok (Value.VInt 1), insertS [] (normKey [] "alpha") (Value.VInt 1)) ∧
    Config.get (insertS [] (normKey [] "alpha") (Value.VInt 1)) "alpha"
        (Value.VInt 2) true =
      (Except.ok (Value.VInt 1), insertS [] (normKey [] "alpha") (Value.VInt 1)) :=
  default_sticks [] "alpha" (Value.VInt 1) (Value.VInt 2) (by decide) (by decide)

/-- C2 counterexample: on the empty store,
`get("PYCONFIG.CASE_SENSITIVE", True)` returns and persists `True` (under
the lower-cased key), but the persisted default flips the policy, so the
subsequent `get("PYCONFIG.CASE_SENSITIVE", False)` misses again and
returns the second default `False` — the first default does not stick. -/
theorem default_sticks_cex :
    Config.getv [] "PYCONFIG.CASE_SENSITIVE" (Value.VBool true) true =
      Except.ok (Value.VBool true) ∧
    Config.getv (Config.get [] "PYCONFIG.CASE_SENSITIVE" (Value.VBool true) true).2
        "PYCONFIG.CASE_SENSITIVE" (Value.VBool false) true =
      Except.ok (Value.VBool false) ∧
    Value.VBool false ≠ Value.VBool true := by
  exact ⟨rfl, rfl, by decide⟩

/-- C3 (amended): for a key `k` whose normalized form is absent,
`get(k, d, allow_default=False)` raises a `LookupError` whose message
names the normalized key, and after `set(k, v)` the same call returns `v`
provided the write leaves the case normalization applied to `k`
unchanged (in particular whenever `k` is not a case variant of
`"pyconfig.case_sensitive"`, or is already lower-case). -/
theorem no_default_lookup_error (settings : Store) (k : String) (d d' v : Value)
    (habs : lookupS settings (normKey settings k) = Option.none) :
    Config.get settings k d false =
      (Except.error (noSettingMsg (normKey settings k)), settings) ∧
    (normKey (Config.set settings k v) k = normKey settings k →
      Config.get (Config.set settings k v) k d' false =
        (Except.ok v, Config.set settings k v)) := by
  constructor
  · simp [Config.get, habs]
  · intro hn
    have hn' : normKey (insertS settings (normKey settings k) v) k =
        normKey settings k := hn
    simp [Config.get, Config.set, hn', lookupS_insertS_self]

theorem no_default_lookup_error_witness :
    Config.get [] "Foo" Value.VNone false =
      (Except.error (noSettingMsg (normKey [] "Foo")), []) ∧
    (normKey (Config.set [] "Foo" (Value.VInt 3)) "Foo" = normKey [] "Foo" →
      Config.get (Config.set [] "Foo" (Value.VInt 3)) "Foo" Value.VNone false =
        (Except.ok (Value.VInt 3), Config.set [] "Foo" (Value.VInt 3))) :=
  no_default_lookup_error [] "Foo" Value.VNone Value.VNone (Value.VInt 3)
    (by decide)

/-- C3 counterexample: after `set("PYCONFIG.CASE_SENSITIVE", True)` on the
empty store, `get("PYCONFIG.CASE_SENSITIVE", None, allow_default=False)`
still raises (the value sits under the lower-cased key while the now
case-sensitive lookup uses the original spelling) instead of returning
the value just written. -/
theorem no_default_lookup_error_cex :
    Config.getv (Config.set [] "PYCONFIG.CASE_SENSITIVE" (Value.VBool true))
        "PYCONFIG.CASE_SENSITIVE" Value.VNone false =
      Except.error "No setting \"PYCONFIG.CASE_SENSITIVE\"" := by
  rfl

/-- C9: when `Config.get(k, d, allow_default=False)` raises for an absent
key, the returned settings mapping is exactly the one passed in — the
failing lookup creates no key and modifies no entry. -/
theorem get_no_default_pure (settings : Store) (k : String) (d : Value)
    (habs : lookupS settings (normKey settings k) = Option.none) :
    (Config.get settings k d false).1 =
      Except.error (noSettingMsg (normKey settings k)) ∧
    (Config.get settings k d false).2 = settings := by
  constructor
  · simp [Config.get, habs]
  · simp [Config.get, habs]

theorem get_no_default_pure_witness :
    (Config.get [("other", Value.VInt 1)] "missing" (Value.VInt 9) false).1 =
      Except.error (noSettingMsg (normKey [("other", Value.VInt 1)] "missing")) ∧
    (Config.get [("other", Value.VInt 1)] "missing" (Value.VInt 9) false).2 =
      [("other", Value.VInt 1)] :=
  get_no_default_pure [("other", Value.VInt 1)] "missing" (Value.VInt 9)
    (by decide)

/-- C4: case sensitivity is read at each mutation/lookup.  Starting from
any store in the default (case-insensitive) mode with `"bar"` unset:
`set("Foo", v1)` makes `get("foo")` return `v1`; after
`set("pyconfig.case_sensitive", True)`, a later `set("Bar", v2)` is
visible at `get("Bar")` but not at `get("bar")` (which falls back to its
default), and the previously stored lower-cased `"foo"` entry is not
renormalized. -/
theorem case_sensitivity_toggle (settings : Store) (v1 v2 d : Value)
    (hcs : getCaseSensitive settings = false)
    (hbar : lookupS settings "bar" = Option.none) :
    Config.getv (Config.set settings "Foo" v1) "foo" d true = Except.ok v1 ∧
    Config.getv (Config.set (Config.set (Config.set settings "Foo" v1)
        caseSensitiveKey (Value.VBool true)) "Bar" v2) "Bar" d true =
      Except.ok v2 ∧
    Config.getv (Config.set (Config.set (Config.set settings "Foo" v1)
        caseSensitiveKey (Value.VBool true)) "Bar" v2) "bar" d true =
      Except.ok d ∧
    lookupS (Config.set (Config.set (Config.set settings "Foo" v1)
        caseSensitiveKey (Value.VBool true)) "Bar" v2) "foo" =
      Option.some v1 := by
  have e1 : Config.set settings "Foo" v1 = insertS settings "foo" v1 := by
    unfold Config.set normKey
    rw [hcs]
    simp [show lowerStr "Foo" = "foo" from by decide]
  have hcs1 : getCaseSensitive (insertS settings "foo" v1) = false := by
    rw [getCS_insertS_ne settings "foo" v1 (by decide), hcs]
  have e2 : Config.set (insertS settings "foo" v1) caseSensitiveKey
      (Value.VBool true) =
      insertS (insertS settings "foo" v1) caseSensitiveKey (Value.VBool true) := by
    unfold Config.set normKey
    rw [hcs1]
    simp [show lowerStr caseSensitiveKey = caseSensitiveKey from by decide]
  have hcs2 : getCaseSensitive (insertS (insertS settings "foo" v1)
      caseSensitiveKey (Value.VBool true)) = true := by
    simp [getCaseSensitive, lookupD, lookupS_insertS_self, truthy]
  have e3 : Config.set (insertS (insertS settings "foo" v1) caseSensitiveKey
      (Value.VBool true)) "Bar" v2 =
      insertS (insertS (insertS settings "foo" v1) caseSensitiveKey
        (Value.VBool true)) "Bar" v2 := by
    unfold Config.set normKey
    rw [hcs2]
    simp
  have hcs3 : getCaseSensitive (insertS (insertS (insertS settings "foo" v1)
      caseSensitiveKey (Value.VBool true)) "Bar" v2) = true := by
    unfold getCaseSensitive lookupD
    rw [lookupS_insertS_ne _ "Bar" caseSensitiveKey v2 (by decide),
      lookupS_insertS_self]
    rfl
  refine ⟨?_, ?_, ?_, ?_⟩
  · rw [e1]
    unfold Config.getv Config.get normKey
    rw [hcs1]
    simp [show lowerStr "foo" = "foo" from by decide, lookupS_insertS_self]
  · rw [e1, e2, e3]
    unfold Config.getv Config.get normKey
    rw [hcs3]
    simp [lookupS_insertS_self]
  · rw [e1, e2, e3]
    unfold Config.getv Config.get normKey
    rw [hcs3]
    simp only [if_true]
    rw [lookupS_insertS_ne _ "Bar" "bar" v2 (by decide),
      lookupS_insertS_ne _ caseSensitiveKey "bar" (Value.VBool true) (by decide),
      lookupS_insertS_ne _ "foo" "bar" v1 (by decide), hbar]
  · rw [e1, e2, e3]
    rw [lookupS_insertS_ne _ "Bar" "foo" v2 (by decide),
      lookupS_insertS_ne _ caseSensitiveKey "foo" (Value.VBool true) (by decide),
      lookupS_insertS_self]

theorem case_sensitivity_toggle_witness :
    Config.getv (Config.set [] "Foo" (Value.VInt 1)) "foo" Value.VNone true =
      Except.ok (Value.VInt 1) ∧
    Config.getv (Config.set (Config.set (Config.set [] "Foo" (Value.VInt 1))
        caseSensitiveKey (Value.VBool true)) "Bar" (Value.VInt 1)) "Bar"
        Value.VNone true = Except.ok (Value.VInt 1) ∧
    Config.getv (Config.set (Config.set (Config.set [] "Foo" (Value.VInt 1))
        caseSensitiveKey (Value.VBool true)) "Bar" (Value.VInt 1)) "bar"
        Value.VNone true = Except.ok Value.VNone ∧
    lookupS (Config.set (Config.set (Config.set [] "Foo" (Value.VInt 1))
        caseSensitiveKey (Value.VBool true)) "Bar" (Value.VInt 1)) "foo" =
      Option.some (Value.VInt 1) :=
  case_sensitivity_toggle [] (Value.VInt 1) (Value.VInt 1) Value.VNone
    (by decide) (by decide)

/-! ## Claims about the etcd adapter and watcher -/

/-- Helper: the key `"pyconfig.etcd.prefix"` is already lower-case, so
`Config.set`/`Config.get` address it unchanged under either case
policy. -/
theorem normKey_etcdPfxKey (settings : Store) :
    normKey settings etcdPfxKey = etcdPfxKey := by
  unfold normKey
  split
  · rfl
  · decide

/-- C5: `etcd.load` inheritance.  With the adapter configured and the
fetched children of the requested range given, write `u` for the flat
update mapping built from them.  If the inherit pointer — the Settings
Store value when the inherit key is cached there, otherwise the freshly
fetched one — is a non-empty string `ptr`, then: at positive depth the
load recursively loads `ptr` at `depth - 1` and merges `u` on top of the
inherited mapping; at depth 0 it returns exactly `u` (the current level's
keys, inherit pointer included) with nothing merged; a cached pointer is
always preferred over a fetched one; and on every key `u` binds, the
merged mapping agrees with `u` (the current level wins on conflict). -/
theorem etcd_load_inheritance (st : EtcdState) (settings : Store)
    (pfx0 ptr : String) (children : List (String × String)) (depth : Nat)
    (hconf : st.configured = true)
    (hrem : st.remote (normPfx pfx0) = Option.some children)
    (hptr : lookupD settings st.inheritKey
        (lookupD (buildUpdate st (normPfx pfx0) children) st.inheritKey
          Value.VNone) = Value.VStr ptr)
    (hne : ptr ≠ "") :
    (0 < depth →
      etcdLoadGo st settings depth pfx0 =
        match etcdLoadGo st settings (depth - 1) ptr with
        | Except.error e => Except.error e
        | Except.ok r =>
          Except.ok (Option.some (dictUpdate (r.getD [])
            (buildUpdate st (normPfx pfx0) children)))) ∧
    (etcdLoadGo st settings 0 pfx0 =
      Except.ok (Option.some (buildUpdate st (normPfx pfx0) children))) ∧
    (∀ w, lookupS settings st.inheritKey = Option.some w →
      lookupD settings st.inheritKey
        (lookupD (buildUpdate st (normPfx pfx0) children) st.inheritKey
          Value.VNone) = w) ∧
    (∀ inh k v,
      lookupS (buildUpdate st (normPfx pfx0) children) k = Option.some v →
      lookupS (dictUpdate inh (buildUpdate st (normPfx pfx0) children)) k =
        Option.some v) := by
  have htr : truthy (Value.VStr ptr) = true := by simp [truthy, hne]
  refine ⟨?_, ?_, ?_, ?_⟩
  · intro hd
    obtain ⟨d, rfl⟩ : ∃ d, depth = d + 1 :=
      ⟨depth - 1, (Nat.succ_pred_eq_of_pos hd).symm⟩
    show etcdLoadCore st settings (etcdLoadGo st settings d) true pfx0 = _
    unfold etcdLoadCore
    rw [hconf]
    simp only [Bool.true_eq_false, if_false, hrem, hptr, htr, Bool.true_and,
      if_true, Nat.add_sub_cancel]
  · show etcdLoadCore st settings (fun _ => Except.ok Option.none) false pfx0 = _
    unfold etcdLoadCore
    rw [hconf]
    simp only [Bool.true_eq_false, Bool.false_eq_true, if_false, hrem,
      Bool.false_and]
  · intro w hw
    simp [lookupD, hw]
  · intro inh k v hkv
    exact dictUpdate_mem (buildUpdate st (normPfx pfx0) children) inh k v
      (keysNodup_buildUpdate st (normPfx pfx0) children) hkv

theorem etcd_load_inheritance_witness :
    etcdLoadGo exSt [("config.inherit", Value.VStr "/a/")] 1 "b" =
      Except.ok (Option.some [("x", Value.VInt 1), ("y", Value.VInt 2),
        ("config.inherit", Value.VStr "/a/")]) ∧
    etcdLoadGo exSt [("config.inherit", Value.VStr "/a/")] 0 "b" =
      Except.ok (Option.some [("y", Value.VInt 2),
        ("config.inherit", Value.VStr "/a/")]) := by
  have T := etcd_load_inheritance exSt [("config.inherit", Value.VStr "/a/")]
    "b" "/a/" [("/b/y", "2"), ("/b/config.inherit", "/a/")] 1 rfl (by decide)
    (by decide) (by decide)
  constructor
  · rw [T.1 (by decide)]
    rfl
  · rw [T.2.1]
    rfl

/-- C6 (amended): `etcd.load` never raises when the backend is unusable,
but the two failure modes return different values: when the adapter is
not configured it returns no mapping at all (the bare `return`, Python
`None`), and only when the remote key range does not exist does it return
an empty mapping. -/
theorem etcd_load_fail_soft (st : EtcdState) (settings : Store)
    (depth : Nat) (pfx0 : String) :
    (st.configured = false →
      etcdLoadGo st settings depth pfx0 = Except.ok Option.none) ∧
    (st.configured = true → st.remote (normPfx pfx0) = Option.none →
      etcdLoadGo st settings depth pfx0 = Except.ok (Option.some [])) := by
  constructor
  · intro h
    cases depth with
    | zero => simp [etcdLoadGo, etcdLoadCore, h]
    | succ d => simp [etcdLoadGo, etcdLoadCore, h]
  · intro h1 h2
    cases depth with
    | zero => simp [etcdLoadGo, etcdLoadCore, h1, h2]
    | succ d => simp [etcdLoadGo, etcdLoadCore, h1, h2]

theorem etcd_load_fail_soft_witness :
    etcdLoadGo exStOff [] 2 "b" = Except.ok Option.none ∧
    etcdLoadGo exSt [] 2 "missing" = Except.ok (Option.some []) :=
  ⟨(etcd_load_fail_soft exStOff [] 2 "b").1 rfl,
   (etcd_load_fail_soft exSt [] 2 "missing").2 rfl (by decide)⟩

/-- C6 counterexample: with the adapter unconfigured, `load` returns
Python `None` (modelled `Option.none`) — not the empty mapping `{}`
(modelled `Option.some []`) that the claim promises for this case. -/
theorem etcd_load_unconfigured_cex :
    etcdLoadGo exStOff [] 2 "b" = Except.ok Option.none ∧
    (Except.ok Option.none : Except String (Option Store)) ≠
      Except.ok (Option.some ([] : Store)) := by
  constructor
  · rfl
  · intro h
    simp at h

/-- C7: when `Config._update` merges a binding whose value is callable,
the callable is invoked with no arguments; a non-`None` result is stored
as the setting under the base-name-prefixed key, and a `None` result
creates no key (the settings dict is returned unchanged). -/
theorem update_callable_eval (settings : Store) (bn name : String)
    (f : Unit → Value)
    (hpriv : listPre "_".toList name.toList = false) :
    (f () = Value.VNone →
      Config.update1 settings (Option.some bn) (name, PyObj.fn f) = settings) ∧
    (∀ w, f () = w → w ≠ Value.VNone →
      Config.update1 settings (Option.some bn) (name, PyObj.fn f) =
        Config.set settings (bn ++ "." ++ name) w ∧
      lookupS (Config.update1 settings (Option.some bn) (name, PyObj.fn f))
          (normKey settings (bn ++ "." ++ name)) = Option.some w) := by
  constructor
  · intro h
    simp [Config.update1, hpriv, h]
  · intro w hw hne
    have heq : Config.update1 settings (Option.some bn) (name, PyObj.fn f) =
        Config.set settings (bn ++ "." ++ name) w := by
      simp only [Config.update1, hpriv, Bool.false_eq_true, if_false]
      rw [hw]
      cases w with
      | VNone => exact absurd rfl hne
      | VBool b => rfl
      | VInt n => rfl
      | VStr s => rfl
    refine ⟨heq, ?_⟩
    rw [heq]
    exact lookupS_insertS_self settings (normKey settings (bn ++ "." ++ name)) w

theorem update_callable_eval_witness :
    Config.update1 [] (Option.some "ns") ("k", PyObj.fn (fun _ => Value.VNone)) =
      [] ∧
    Config.update1 [] (Option.some "ns")
        ("k", PyObj.fn (fun _ => Value.VStr "v")) =
      Config.set [] ("ns" ++ "." ++ "k") (Value.VStr "v") ∧
    lookupS (Config.update1 [] (Option.some "ns")
        ("k", PyObj.fn (fun _ => Value.VStr "v")))
        (normKey [] ("ns" ++ "." ++ "k")) = Option.some (Value.VStr "v") := by
  have T1 := update_callable_eval [] "ns" "k" (fun _ => Value.VNone) (by decide)
  have T2 := update_callable_eval [] "ns" "k" (fun _ => Value.VStr "v") (by decide)
  have H := T2.2 (Value.VStr "v") rfl (by decide)
  exact ⟨T1.1 rfl, H.1, H.2⟩

/-- C8: the watcher only writes through `Config.set`, and only for `"set"`
events (with the first occurrence of the adapter's slash-normalized
key-range name removed from the key and the value best-effort
JSON-decoded); every other event kind leaves the settings dict untouched,
and a whole watcher run never removes a key from the store. -/
theorem watcher_set_only (st : EtcdState) (settings : Store) (e : EtcdEvent)
    (p : String) (events : List EtcdEvent) (res : Store) (k : String) :
    (e.action ≠ "set" → watchStep st settings e = Option.some settings) ∧
    (e.action = "set" → p ≠ "" →
      lookupS settings etcdPfxKey = Option.some (Value.VStr p) →
      watchStep st settings e =
        Option.some (Config.set settings (removeFirst e.key (normPfx p))
          (decodeVal st e.value))) ∧
    (watcherRun st settings events = Option.some res →
      hasKey settings k = true → hasKey res k = true) := by
  refine ⟨?_, ?_, ?_⟩
  · intro h
    unfold watchStep
    rw [if_neg h]
  · intro ha hp hlook
    unfold watchStep
    rw [ha, if_pos rfl]
    have htr2 : truthy (Value.VStr p) = true := by simp [truthy, hp]
    have hg : etcdPfxGet settings = Option.some (normPfx p, settings) := by
      unfold etcdPfxGet Config.get
      simp only [normKey_etcdPfxKey, hlook, htr2, if_true]
    rw [hg]
  · intro hrun hk
    unfold watcherRun at hrun
    by_cases hc : st.configured
    · rw [if_pos hc] at hrun
      exact watchRun_mono st events settings res k hrun hk
    · rw [if_neg hc] at hrun
      cases hrun
      exact hk

theorem watcher_set_only_witness :
    watchStep exSt [(etcdPfxKey, Value.VStr "cfg")]
        { action := "delete", key := "/cfg/x", value := "1" } =
      Option.some [(etcdPfxKey, Value.VStr "cfg")] ∧
    watchStep exSt [(etcdPfxKey, Value.VStr "cfg")]
        { action := "set", key := "/cfg/x", value := "1" } =
      Option.some (Config.set [(etcdPfxKey, Value.VStr "cfg")]
        (removeFirst "/cfg/x" (normPfx "cfg")) (decodeVal exSt "1")) ∧
    hasKey [(etcdPfxKey, Value.VStr "cfg")] etcdPfxKey = true := by
  have T1 := (watcher_set_only exSt [(etcdPfxKey, Value.VStr "cfg")]
    { action := "delete", key := "/cfg/x", value := "1" } "cfg" [] [] etcdPfxKey).1
    (by decide)
  have T2 := (watcher_set_only exSt [(etcdPfxKey, Value.VStr "cfg")]
    { action := "set", key := "/cfg/x", value := "1" } "cfg" [] [] etcdPfxKey).2.1
    rfl (by decide) (by decide)
  exact ⟨T1, T2, by decide⟩

/-- C10: the `etcd().prefix` property stays slash-normalized.  Whenever
the getter yields a string it has the form `"/" ++ core ++ "/"` (leading
and trailing slash); when the setting is unset the getter yields the
fallback `/config/` (persisting `None` under the key as a side effect of
the embedded `get`); when the stored setting is the empty string the
getter also falls back to `/config/`; and for every non-empty argument
the setter stores exactly the slash-normalized form under
`"pyconfig.etcd.prefix"`. -/
theorem etcd_pfx_normalized (settings : Store) (str : String) (s1 : Store)
    (p : String) :
    (etcdPfxGet settings = Option.some (str, s1) →
      ∃ core, str = "/" ++ core ++ "/") ∧
    (lookupS settings etcdPfxKey = Option.none →
      etcdPfxGet settings = Option.some (normPfx "/config/",
        insertS settings etcdPfxKey Value.VNone)) ∧
    (lookupS settings etcdPfxKey = Option.some (Value.VStr "") →
      etcdPfxGet settings = Option.some (normPfx "/config/", settings)) ∧
    (p ≠ "" →
      lookupS (etcdPfxSet settings (Option.some p)) etcdPfxKey =
        Option.some (Value.VStr (normPfx p))) := by
  refine ⟨?_, ?_, ?_, ?_⟩
  · intro h
    unfold etcdPfxGet Config.get at h
    cases hl : lookupS settings (normKey settings etcdPfxKey) with
    | some v =>
      simp only [hl] at h
      by_cases ht : truthy v
      · cases v with
        | VStr s =>
          rw [if_pos ht] at h
          obtain ⟨rfl, -⟩ := Prod.mk.injEq .. ▸ (Option.some.injEq .. ▸ h)
          exact ⟨stripSlashes s, rfl⟩
        | VNone => simp [truthy] at ht
        | VBool b => rw [if_pos ht] at h; cases h
        | VInt n => rw [if_pos ht] at h; cases h
      · rw [if_neg ht] at h
        obtain ⟨rfl, -⟩ := Prod.mk.injEq .. ▸ (Option.some.injEq .. ▸ h)
        exact ⟨stripSlashes "/config/", rfl⟩
    | none =>
      simp only [hl, if_true] at h
      have ht : truthy Value.VNone = false := rfl
      rw [ht] at h
      simp only [Bool.false_eq_true, if_false, Option.some.injEq] at h
      obtain ⟨rfl, -⟩ := Prod.mk.injEq .. ▸ h
      exact ⟨stripSlashes "/config/", rfl⟩
  · intro habs
    unfold etcdPfxGet Config.get
    simp only [normKey_etcdPfxKey, habs, if_true]
    rfl
  · intro hemp
    unfold etcdPfxGet Config.get
    simp only [normKey_etcdPfxKey, hemp]
    rfl
  · intro hp
    show lookupS (if p = "" then settings
      else Config.set settings etcdPfxKey (Value.VStr (normPfx p))) etcdPfxKey = _
    rw [if_neg hp]
    unfold Config.set
    rw [normKey_etcdPfxKey]
    exact lookupS_insertS_self settings etcdPfxKey (Value.VStr (normPfx p))

theorem etcd_pfx_normalized_witness :
    (∃ core, normPfx "/config/" = "/" ++ core ++ "/") ∧
    etcdPfxGet [] = Option.some (normPfx "/config/",
      insertS [] etcdPfxKey Value.VNone) ∧
    etcdPfxGet [(etcdPfxKey, Value.VStr "")] =
      Option.some (normPfx "/config/", [(etcdPfxKey, Value.VStr "")]) ∧
    lookupS (etcdPfxSet [] (Option.some "pyconfig_test")) etcdPfxKey =
      Option.some (Value.VStr (normPfx "pyconfig_test")) := by
  have T := etcd_pfx_normalized [] (normPfx "/config/")
    (insertS [] etcdPfxKey Value.VNone) "pyconfig_test"
  have T2 := etcd_pfx_normalized [(etcdPfxKey, Value.VStr "")]
    (normPfx "/config/") [(etcdPfxKey, Value.VStr "")] "x"
  exact ⟨T.1 (by decide), T.2.1 (by decide), T2.2.2.1 (by decide),
    T.2.2.2 (by decide)⟩
